import Mathlib

/-!
Verification development for the clawless skill-governance system.

Shallow embedding of the components the specification claims concern:
the static safety analyzer (src/admin/analyzer.py), the path sandbox
(src/clawless/utils/helpers.py), the event kernel (src/user/kernel.py),
and the admin pipeline orchestrator (src/admin/service.py).
-/

namespace Clawless

/-! ### Static safety analyzer (src/admin/analyzer.py)

The analyzer walks the Python abstract syntax tree of a candidate skill
implementation.  The embedding models the node kinds the analyzer
inspects (Import, ImportFrom, Call, string Constant) together with
representative container nodes, so that nested nodes are walked exactly
as `ast.walk` visits them.  `ast.walk` is breadth-first; the analyzer
checks each visited node independently, so the set of emitted issues
does not depend on the visit order and the embedding collects nodes
structurally. -/

def FORBIDDEN_IMPORTS : List String :=
  ["os", "sys", "subprocess", "shutil", "socket", "http",
   "urllib", "requests", "httpx", "importlib", "ctypes",
   "multiprocessing", "threading", "signal", "pathlib",
   "tempfile", "glob", "fnmatch", "io", "pickle", "shelve",
   "marshal", "code", "codeop", "compileall", "py_compile"]

def FORBIDDEN_BUILTINS : List String :=
  ["eval", "exec", "compile", "__import__", "open",
   "globals", "locals", "vars", "dir", "getattr", "setattr", "delattr",
   "breakpoint", "exit", "quit"]

/-- Substring patterns flagged inside string constants. -/
def CODE_EXECUTION_PATTERNS : List String :=
  ["__import__", "eval(", "exec("]

/-- Python expression nodes relevant to the analyzer. -/
inductive PyExpr where
  | name (id : String) (lineno : Nat)
  | attrAccess (value : PyExpr) (attrName : String) (lineno : Nat)
  | call (func : PyExpr) (args : List PyExpr) (lineno : Nat)
  | strConst (val : String) (lineno : Nat)
  | otherConst (lineno : Nat)
  | binop (left : PyExpr) (right : PyExpr) (lineno : Nat)

/-- Python statement nodes relevant to the analyzer.  An
`importStmt` carries the dotted alias names of one Python statement
of the form `import a.b, c`; `importFrom` carries the optional module
of a `from m ... ` statement. -/
inductive PyStmt where
  | importStmt (names : List String) (lineno : Nat)
  | importFrom (module : Option String) (lineno : Nat)
  | exprStmt (e : PyExpr)
  | assign (value : PyExpr)

/-- Embeds `_get_call_name`: extract the function name from a Call node. -/
def getCallName : PyExpr → String
  | .call (.name id _) _ _ => id
  | .call (.attrAccess _ a _) _ _ => a
  | _ => ""

mutual

/-- All nodes of an expression (the node itself and its descendants),
as visited by the tree walk. -/
def PyExpr.subNodes : PyExpr → List PyExpr
  | .name id ln => [.name id ln]
  | .attrAccess v a ln => .attrAccess v a ln :: v.subNodes
  | .call f args ln => .call f args ln :: (f.subNodes ++ PyExpr.subNodesList args)
  | .strConst s ln => [.strConst s ln]
  | .otherConst ln => [.otherConst ln]
  | .binop l r ln => .binop l r ln :: (l.subNodes ++ r.subNodes)

def PyExpr.subNodesList : List PyExpr → List PyExpr
  | [] => []
  | e :: es => e.subNodes ++ PyExpr.subNodesList es

end

/-- Does the character list `l` start with `pat`. -/
def charsStartWith : List Char → List Char → Bool
  | _, [] => true
  | [], _ :: _ => false
  | c :: cs, p :: ps => c == p && charsStartWith cs ps

/-- Does the character list contain `pat` as a contiguous run. -/
def charsHaveSub (pat : List Char) : List Char → Bool
  | [] => pat.isEmpty
  | c :: cs => charsStartWith (c :: cs) pat || charsHaveSub pat cs

/-- Embeds the string-constant heuristic: the value contains one of the
code-execution patterns as a substring. -/
def containsCodePattern (s : String) : Bool :=
  CODE_EXECUTION_PATTERNS.any (fun p => charsHaveSub p.toList s.toList)

/-- One warning emitted by `analyze_code_safety`.  The source emits
formatted strings; the embedding keeps the structured content of each
message (kind of finding, offending name, line number). -/
inductive SafetyIssue where
  | forbiddenImport (name : String) (lineno : Nat)
  | forbiddenImportFrom (module : String) (lineno : Nat)
  | forbiddenCall (funcName : String) (lineno : Nat)
  | suspiciousString (lineno : Nat)
deriving Repr, DecidableEq

/-- Issues contributed by one visited expression node: the Call and
string-Constant branches of the walk in `analyze_code_safety`. -/
def exprNodeIssues : PyExpr → List SafetyIssue
  | .call f args ln =>
      if FORBIDDEN_BUILTINS.contains (getCallName (.call f args ln)) then
        [.forbiddenCall (getCallName (.call f args ln)) ln]
      else []
  | .strConst v ln =>
      if containsCodePattern v then [.suspiciousString ln] else []
  | _ => []

/-- The top-level module of a dotted name, the first element of
splitting on dots: the characters before the first dot. -/
def topModule (n : String) : String :=
  String.mk (n.toList.takeWhile (fun c => c ≠ '.'))

/-- Issues contributed by one statement node and the expression nodes
below it. -/
def stmtIssues : PyStmt → List SafetyIssue
  | .importStmt names ln =>
      names.filterMap (fun n =>
        if FORBIDDEN_IMPORTS.contains (topModule n) then
          some (.forbiddenImport n ln)
        else none)
  | .importFrom mo ln =>
      match mo with
      | some m =>
          if FORBIDDEN_IMPORTS.contains (topModule m) then
            [.forbiddenImportFrom m ln]
          else []
      | none => []
  | .exprStmt e => e.subNodes.flatMap exprNodeIssues
  | .assign v => v.subNodes.flatMap exprNodeIssues

/-- Expression nodes reachable below one statement. -/
def stmtExprs : PyStmt → List PyExpr
  | .importStmt _ _ => []
  | .importFrom _ _ => []
  | .exprStmt e => e.subNodes
  | .assign v => v.subNodes

/-- A parsed module: the statement list of the syntax tree. -/
abbrev PyModule := List PyStmt

/-- All expression nodes visited by the walk over a module. -/
def moduleExprs (m : PyModule) : List PyExpr :=
  m.flatMap stmtExprs

/-- Embeds `analyze_code_safety` on a parsed module: walk every node
and collect the warnings.  An empty list means no issues found. -/
def analyze_code_safety (m : PyModule) : List SafetyIssue :=
  m.flatMap stmtIssues

/-- One warning emitted by `analyze_composition`: either a capability
overlap with a named active skill (carrying the sorted shared
capability list the source interpolates into the message) or the fixed
sensitive-pair policy warning. -/
inductive CompWarning where
  | overlap (skillName : String) (sharedCaps : List String)
  | sensitivePair
deriving Repr, DecidableEq

def insertSorted (x : String) : List String → List String
  | [] => [x]
  | y :: ys => if x ≤ y then x :: y :: ys else y :: insertSorted x ys

def sortStrings (l : List String) : List String :=
  List.foldr insertSorted [] l

/-- The sorted set intersection `sorted(proposed_set and set(caps))`. -/
def sortedOverlap (caps proposed : List String) : List String :=
  sortStrings ((caps.filter (fun c => proposed.contains c)).dedup)

/-- The fixed sensitive capability combination. -/
def SENSITIVE_PAIR : List String := ["user:input", "memory:write"]

/-- Embeds `analyze_composition`: one overlap warning per active skill
with a non-empty capability intersection, in map order, then the
sensitive-pair warning when the proposal holds the whole pair. -/
def analyze_composition (proposalCapabilities : List String)
    (activeSkillCapabilities : List (String × List String)) : List CompWarning :=
  (activeSkillCapabilities.filterMap (fun sc =>
    let ov := sortedOverlap sc.2 proposalCapabilities
    if ov.isEmpty then none else some (.overlap sc.1 ov)))
  ++ (if SENSITIVE_PAIR.all (fun c => proposalCapabilities.contains c) then
        [CompWarning.sensitivePair]
      else [])

/-- An issue recorded in `AnalysisResult.issues`: either the
read-failure message of `analyze_file` or a safety-scan warning. -/
inductive FileIssue where
  | readFailure
  | safety (i : SafetyIssue)
deriving Repr, DecidableEq

/-- Embeds the `AnalysisResult` dataclass. -/
structure AnalysisResult where
  clean : Bool
  issues : List FileIssue
  compositionWarnings : List CompWarning
deriving Repr, DecidableEq

/-- Embeds `has_critical_issues`. -/
def AnalysisResult.hasCriticalIssues (r : AnalysisResult) : Bool :=
  !r.clean

/-- Embeds `analyze_file`.  Reading the implementation file may fail
(`code = none`): that returns early, unclean, with a single issue and
no composition pass.  Otherwise the safety scan decides cleanliness and
the composition warnings are appended. -/
def analyze_file (code : Option PyModule) (proposalCapabilities : List String)
    (activeSkills : List (String × List String)) : AnalysisResult :=
  match code with
  | none => ⟨false, [FileIssue.readFailure], []⟩
  | some m =>
      let safetyIssues := analyze_code_safety m
      ⟨safetyIssues.isEmpty, safetyIssues.map FileIssue.safety,
       analyze_composition proposalCapabilities activeSkills⟩

/-! ### Path sandbox (src/clawless/utils/helpers.py)

Paths are modeled as segment lists; an absolute path is its list of
components below the filesystem root.  `Path.resolve` normalization is
the left fold that pops a component for a dot-dot segment (the root is
its own parent) and drops empty and single-dot segments. -/

def ALLOWED_WRITE_SUBDIRS : List String := ["profiles", "proposals"]

/-- One step of path normalization. -/
def stepSeg (acc : List String) (seg : String) : List String :=
  if seg == ".." then acc.dropLast
  else if seg == "." || seg == "" then acc
  else acc ++ [seg]

/-- Resolve a segment sequence against an already-resolved base path:
the model of joining then calling `resolve()`. -/
def resolveSegs (base : List String) (segs : List String) : List String :=
  List.foldl stepSeg base segs

/-- Embeds the `PathViolationError` raised by the sandbox, with the
structured content of the two messages. -/
inductive PathViolation where
  | outsideRoot (target root : List String)
  | disallowedTop (top : String)
deriving Repr, DecidableEq

/-- Embeds the helper that checks `path.relative_to(parent)` succeeds:
`parent` is a segmentwise prefix of `path`. -/
def isPathUnder (path parent : List String) : Bool :=
  match parent, path with
  | [], _ => true
  | _ :: _, [] => false
  | q :: qs, p :: ps => p == q && isPathUnder ps qs

/-- Embeds `resolve_safe_write_path`: resolve the data root, resolve
the joined target, require the target under the root, then require the
first segment under the root to be in the allow-list. -/
def resolve_safe_write_path (dataDir : List String) (relativePath : List String) :
    Except PathViolation (List String) :=
  let dataRoot := resolveSegs [] dataDir
  let target := resolveSegs dataRoot relativePath
  if !isPathUnder target dataRoot then
    .error (.outsideRoot target dataRoot)
  else
    let rel := target.drop dataRoot.length
    let top := rel.headD ""
    if !ALLOWED_WRITE_SUBDIRS.contains top then
      .error (.disallowedTop top)
    else
      .ok target

/-! ### Event kernel (src/user/kernel.py and src/user/skills/base.py)

A skill is modeled by its declared name, capability set, handled event
types, and its handler, which may raise (the `Except.error` case) or
return an optional result.  The registry is the ordered list of
registered skills: `get` is lookup by name, `find_by_event` filters in
registration order.  `dispatch` is instrumented to also return the
names of the handlers it invoked, so that non-invocation is provable. -/

structure SkillResult where
  success : Bool
  output : String
deriving Repr, DecidableEq

structure Event where
  type : String
  payload : String
  source : String
deriving Repr, DecidableEq

structure Skill where
  name : String
  capabilities : List String
  handlesEvents : List String
  handle : Event → Except String (Option SkillResult)

def SkillRegistry := List Skill

/-- Embeds `SkillRegistry.get`. -/
def registryGet (reg : SkillRegistry) (name : String) : Option Skill :=
  reg.find? (fun s => s.name == name)

/-- Embeds `SkillRegistry.find_by_event`. -/
def findByEvent (reg : SkillRegistry) (eventType : String) : List Skill :=
  reg.filter (fun s => s.handlesEvents.contains eventType)

/-- Embeds `_EVENT_CAPABILITIES`: event type to required capability. -/
def EVENT_CAPABILITIES : List (String × String) :=
  [("user_input", "user:input"),
   ("user_output", "user:output"),
   ("memory_query", "memory:read"),
   ("memory_store", "memory:write")]

/-- The routing loop of `dispatch`: walk the handlers in order, skip
the source skill, swallow handler exceptions, and stop at the first
non-none result.  Returns the result together with the names of the
handlers that were invoked. -/
def routeHandlers (event : Event) : List Skill → Option SkillResult × List String
  | [] => (none, [])
  | s :: rest =>
      if s.name == event.source then routeHandlers event rest
      else
        match s.handle event with
        | .ok (some res) => (some res, [s.name])
        | .ok none =>
            let (r, inv) := routeHandlers event rest
            (r, s.name :: inv)
        | .error _ =>
            let (r, inv) := routeHandlers event rest
            (r, s.name :: inv)

/-- The routing phase of `dispatch` on a registry. -/
def routeEvent (reg : SkillRegistry) (event : Event) : Option SkillResult × List String :=
  routeHandlers event (findByEvent reg event.type)

/-- Embeds `Kernel.dispatch`: look up the capability required for the
event type; when one is required and the source skill is registered
without it, return a denied result and invoke no handler; otherwise
route to the matching handlers. -/
def dispatch (reg : SkillRegistry) (event : Event) : Option SkillResult × List String :=
  match EVENT_CAPABILITIES.lookup event.type with
  | some requiredCap =>
      match registryGet reg event.source with
      | some sourceSkill =>
          if !sourceSkill.capabilities.contains requiredCap then
            (some ⟨false, "Missing capability: " ++ requiredCap⟩, [])
          else routeEvent reg event
      | none => routeEvent reg event
  | none => routeEvent reg event

/-! ### Manifest and skill-package filesystem (src/admin/service.py)

State touched by the install and removal actions: the manifest file
(its existence and its entry list) and the skill package directories
under the skills package, with the files inside each. -/

structure ManifestEntry where
  module : String
  className : String
deriving Repr, DecidableEq

structure SkillsFS where
  manifestExists : Bool
  manifest : List ManifestEntry
  skillDirs : List String
  skillFiles : List (String × String)
deriving Repr, DecidableEq

/-- The point inside step 3 of the install at which the filesystem is
made to fail: creating the package directory, copying `skill.py`, or
writing the package init file. -/
inductive FailPoint where
  | mkdirStep
  | copyStep
  | writeInitStep
deriving Repr, DecidableEq

/-- Errors raised by the install action, with structured content. -/
inductive InstallError where
  | targetDirExists (moduleName : String)
  | manifestMissing
  | duplicateManifestEntry (modulePath : String)
  | fsFailure (p : FailPoint)
deriving Repr, DecidableEq

/-- Embeds `_slug_to_module_name`: replace every hyphen with an
underscore (the replaced pattern is a single character, so substring
replacement is characterwise replacement). -/
def slugToModuleName (slug : String) : String :=
  String.mk (slug.toList.map (fun ch => if ch = '-' then '_' else ch))

/-- The dotted module path derived from a module directory name. -/
def modulePathOf (moduleName : String) : String :=
  "clawless.user.skills." ++ moduleName

/-- Embeds `_update_manifest`: missing manifest file and duplicate
module entries are errors; otherwise the new entry is appended. -/
def updateManifest (fs : SkillsFS) (modulePath className : String) :
    Except InstallError SkillsFS :=
  if !fs.manifestExists then .error .manifestMissing
  else if fs.manifest.any (fun e => e.module == modulePath) then
    .error (.duplicateManifestEntry modulePath)
  else .ok { fs with manifest := fs.manifest ++ [⟨modulePath, className⟩] }

/-- Embeds `_remove_from_manifest`: no-op when the manifest file is
missing, otherwise filter out every entry with the module path. -/
def removeFromManifest (fs : SkillsFS) (modulePath : String) : SkillsFS :=
  if !fs.manifestExists then fs
  else { fs with manifest := fs.manifest.filter (fun e => e.module != modulePath) }

/-- `shutil.rmtree` on a skill package directory: the directory and
every file inside it disappear. -/
def rmtreeSkillDir (fs : SkillsFS) (moduleName : String) : SkillsFS :=
  { fs with
    skillDirs := fs.skillDirs.filter (fun d => d != moduleName),
    skillFiles := fs.skillFiles.filter (fun f => f.1 != moduleName) }

/-- Embeds `_install_skill` from the target-directory check onward
(steps 4 to 6 of the source; code-path resolution and class-name
extraction are inputs here).  `failAt` injects a filesystem failure
into step 3 at the given point; the state reached before the failure
persists and the rollback branch then runs.  Returns the final state
and the raised error, if any. -/
def installSkill (fs : SkillsFS) (moduleName className : String)
    (failAt : Option FailPoint) : SkillsFS × Option InstallError :=
  let modulePath := modulePathOf moduleName
  if fs.skillDirs.contains moduleName then
    (fs, some (.targetDirExists moduleName))
  else
    match updateManifest fs modulePath className with
    | .error e => (fs, some e)
    | .ok fs1 =>
        match failAt with
        | some .mkdirStep =>
            let fs2 := removeFromManifest fs1 modulePath
            let fs3 := if fs2.skillDirs.contains moduleName then rmtreeSkillDir fs2 moduleName else fs2
            (fs3, some (.fsFailure .mkdirStep))
        | some .copyStep =>
            let fs2 := { fs1 with skillDirs := fs1.skillDirs ++ [moduleName] }
            let fs3 := removeFromManifest fs2 modulePath
            let fs4 := if fs3.skillDirs.contains moduleName then rmtreeSkillDir fs3 moduleName else fs3
            (fs4, some (.fsFailure .copyStep))
        | some .writeInitStep =>
            let fs2 := { fs1 with
                         skillDirs := fs1.skillDirs ++ [moduleName],
                         skillFiles := fs1.skillFiles ++ [(moduleName, "skill.py")] }
            let fs3 := removeFromManifest fs2 modulePath
            let fs4 := if fs3.skillDirs.contains moduleName then rmtreeSkillDir fs3 moduleName else fs3
            (fs4, some (.fsFailure .writeInitStep))
        | none =>
            ({ fs1 with
               skillDirs := fs1.skillDirs ++ [moduleName],
               skillFiles := fs1.skillFiles ++
                 [(moduleName, "skill.py"), (moduleName, "__init__.py")] },
             none)

/-! ### Pipeline orchestrator (src/admin/service.py)

A proposal record: the spec fields under the `proposal` key, the
status, the append-only history, the rejection fields, and the
ephemeral working context that is stripped before every persist. -/

structure HistEntry where
  timestamp : String
  status : String
  actor : String
deriving Repr, DecidableEq

structure PContext where
  codePath : Option String
  analysis : Option AnalysisResult
deriving Repr, DecidableEq

structure Proposal where
  id : String
  slug : String
  name : String
  description : String
  capabilities : List String
  status : String
  history : List HistEntry
  rejectionReason : Option String
  rejectionReasonType : Option String
  context : PContext
deriving Repr, DecidableEq

/-- The message and type name of a raised Python exception. -/
structure ExcInfo where
  msg : String
  typeName : String
deriving Repr, DecidableEq

/-- Outcome of a gate action: Python actions mutate the proposal dict
in place, so a raised exception still carries the proposal as mutated
up to the failure point. -/
inductive ActionOutcome where
  | ok (p : Proposal)
  | err (e : ExcInfo) (p : Proposal)

/-- The proposal state after an action, successful or not. -/
def outcomeProposal : ActionOutcome → Proposal
  | .ok p => p
  | .err _ p => p

/-- Embeds `_save_proposal` stripping underscore-prefixed keys: the
record as persisted to its YAML file. -/
def stripContext (p : Proposal) : Proposal :=
  { p with context := ⟨none, none⟩ }

/-- Embeds `_append_history`. -/
def appendHistory (p : Proposal) (status actor now : String) : Proposal :=
  { p with history := p.history ++ [⟨now, status, actor⟩] }

/-- Embeds `_reject`: set the status to rejected, record the reason
(and the reason type when given), and append a history entry. -/
def rejectProposal (p : Proposal) (reason : String) (reasonType : Option String)
    (now : String) : Proposal :=
  appendHistory
    { p with
      status := "rejected",
      rejectionReason := some reason,
      rejectionReasonType :=
        match reasonType with
        | some t => some t
        | none => p.rejectionReasonType }
    "rejected" "admin-service" now

/-- The gate check and advance of `_transition`, after the action has
succeeded: a human gate consults the approval channel and a refusal
rejects; otherwise the status is set to the target and history grows. -/
def gateAndAdvance (gate : String) (approval : Proposal → String → Bool)
    (now : String) (p : Proposal) (targetStatus : String) : Proposal :=
  if gate == "human" && !approval p targetStatus then
    rejectProposal p ("Rejected at " ++ targetStatus ++ " gate") none now
  else
    appendHistory { p with status := targetStatus } targetStatus "admin-service" now

/-- Embeds `_transition`: read the gate policy for the target status,
run the action first, reject on an action error with the error message
and its type name, then gate-check and advance. -/
def transition (gates : List (String × String)) (approval : Proposal → String → Bool)
    (now : String) (targetStatus : String)
    (action : Option (Proposal → ActionOutcome)) (p : Proposal) : Proposal :=
  let gate := (gates.lookup targetStatus).getD "auto"
  match action with
  | some act =>
      match act p with
      | .err e p1 =>
          rejectProposal p1 ("Action failed: " ++ e.msg) (some e.typeName) now
      | .ok p1 => gateAndAdvance gate approval now p1 targetStatus
  | none => gateAndAdvance gate approval now p targetStatus

/-- The stage actions wired into `_process_proposal`, as parameters:
schema validation, code generation, static analysis, and install. -/
structure StageActions where
  validateSchemaA : Proposal → ActionOutcome
  generateCodeA : Proposal → ActionOutcome
  runAnalysisA : Proposal → ActionOutcome
  installSkillA : Proposal → ActionOutcome

/-- Embeds `_process_proposal`: attempt each forward edge in order,
re-reading the status after every transition attempt.  The boolean
records whether any transition (and hence any persist) ran. -/
def processProposal (acts : StageActions) (gates : List (String × String))
    (approval : Proposal → String → Bool) (now : String) (p : Proposal) :
    Proposal × Bool :=
  let s1 := if p.status == "new" then
      (transition gates approval now "discovered" (some acts.validateSchemaA) p, true)
    else (p, false)
  let s2 := if s1.1.status == "discovered" then
      (transition gates approval now "implementation" (some acts.generateCodeA) s1.1, true)
    else s1
  let s3 := if s2.1.status == "implementation" then
      (transition gates approval now "agent-review" (some acts.runAnalysisA) s2.1, true)
    else s2
  let s4 := if s3.1.status == "agent-review" then
      (transition gates approval now "human-review" none s3.1, true)
    else s3
  if s4.1.status == "human-review" then
    (transition gates approval now "accepted" (some acts.installSkillA) s4.1, true)
  else s4

/-- A stored proposal file: YAML that is not a mapping loads to
`malformed`, otherwise it holds a record. -/
inductive RawRecord where
  | malformed
  | record (p : Proposal)
deriving Repr, DecidableEq

/-- Embeds `_load_proposal`: non-mapping files and records in a
terminal status load as `none` and are skipped. -/
def loadProposal : RawRecord → Option Proposal
  | .malformed => none
  | .record p =>
      if p.status == "accepted" || p.status == "rejected" then none
      else some p

/-- One record of `_scan_and_process`: load (skipping terminal and
malformed records), process, and return the file as left on disk —
the last persisted state when any transition ran, the untouched file
otherwise. -/
def scanStep (acts : StageActions) (gates : List (String × String))
    (approval : Proposal → String → Bool) (now : String) (r : RawRecord) : RawRecord :=
  match loadProposal r with
  | none => r
  | some p =>
      let res := processProposal acts gates approval now p
      if res.2 then .record (stripContext res.1) else r

/-- Embeds `_scan_and_process` over the proposal directory: each record
is processed independently. -/
def scanAndProcess (acts : StageActions) (gates : List (String × String))
    (approval : Proposal → String → Bool) (now : String)
    (store : List RawRecord) : List RawRecord :=
  store.map (scanStep acts gates approval now)

/-- Embeds `_get_active_skill_capabilities`: the source returns the
empty mapping unconditionally. -/
def getActiveSkillCapabilities : List (String × List String) := []

/-- Embeds `_run_analysis`: fail without a code path; otherwise analyze
the implementation file against the active-skill capability map from
`getActiveSkillCapabilities`, store the summary in the working context,
and raise when the result has critical issues. -/
def runAnalysis (readFile : String → Option PyModule) (p : Proposal) : ActionOutcome :=
  match p.context.codePath with
  | none => .err ⟨"No implementation code path found", "RuntimeError"⟩ p
  | some codePath =>
      let result := analyze_file (readFile codePath) p.capabilities
        getActiveSkillCapabilities
      let p1 := { p with context := { p.context with analysis := some result } }
      if result.hasCriticalIssues then
        .err ⟨"Analysis found critical issues", "RuntimeError"⟩ p1
      else .ok p1

/-! ### Skill removal (src/admin/service.py, `remove_skill`) -/

def CORE_MODULES : List String := ["cli", "reasoning", "memory", "proposer"]

inductive RemoveError where
  | notFound
  | coreSkill (slug : String)
deriving Repr, DecidableEq

/-- The body of `remove_skill` on the matching record: refuse core
skills before any mutation; otherwise remove the manifest entry, delete
the package directory if present, and mark the record removed. -/
def removeSkillMatched (fs : SkillsFS) (now : String) (r : Proposal) :
    Except RemoveError (Proposal × SkillsFS) :=
  let moduleName := slugToModuleName r.slug
  if CORE_MODULES.contains moduleName then
    .error (.coreSkill r.slug)
  else
    let fs1 := removeFromManifest fs (modulePathOf moduleName)
    let fs2 := if fs1.skillDirs.contains moduleName then rmtreeSkillDir fs1 moduleName else fs1
    let r1 := appendHistory { r with status := "removed" } "removed" "admin-cli" now
    .ok (stripContext r1, fs2)

/-- Embeds `remove_skill`: walk the proposal files, act on the first
record whose id or slug matches, and report not-found otherwise. -/
def removeSkill (fs : SkillsFS) (now : String) (idOrSlug : String) :
    List Proposal → Except RemoveError (List Proposal × SkillsFS)
  | [] => .error .notFound
  | r :: rest =>
      if r.id == idOrSlug || r.slug == idOrSlug then
        match removeSkillMatched fs now r with
        | .error e => .error e
        | .ok (r1, fs1) => .ok (r1 :: rest, fs1)
      else
        match removeSkill fs now idOrSlug rest with
        | .error e => .error e
        | .ok (rs, fs1) => .ok (r :: rs, fs1)

/-! ### Auxiliary predicates on composition warnings -/

/-- Does a composition warning mention the named skill. -/
def CompWarning.mentionsSkill : CompWarning → String → Bool
  | .overlap s _, n => s == n
  | .sensitivePair, _ => false

/-- Is a composition warning a capability-overlap warning. -/
def CompWarning.isOverlapWarning : CompWarning → Bool
  | .overlap _ _ => true
  | .sensitivePair => false

/-! ### Theorems for the claims -/

/-- C2: terminal idempotence.  A proposal record whose persisted status
is accepted or rejected is filtered out by the loader before any
processing, and a scan pass leaves the stored record unchanged, for
every choice of stage actions, gate configuration and approval channel
(so no gate action runs on it). -/
theorem terminal_status_scan_idempotent (acts : StageActions)
    (gates : List (String × String)) (approval : Proposal → String → Bool)
    (now : String) (p : Proposal)
    (h : p.status = "accepted" ∨ p.status = "rejected") :
    loadProposal (RawRecord.record p) = none ∧
    scanStep acts gates approval now (RawRecord.record p) = RawRecord.record p := by
  have hl : loadProposal (RawRecord.record p) = none := by
    rcases h with h | h <;> simp [loadProposal, h]
  exact ⟨hl, by simp [scanStep, hl]⟩

/-- Witness for C2 at a concrete accepted record. -/
theorem terminal_status_scan_idempotent_witness :
    loadProposal (RawRecord.record
      ⟨"id-9", "clock", "Clock", "tells time", ["llm:call"], "accepted",
       [⟨"t0", "accepted", "admin-service"⟩], none, none, ⟨none, none⟩⟩) = none ∧
    scanStep ⟨ActionOutcome.ok, ActionOutcome.ok, ActionOutcome.ok, ActionOutcome.ok⟩
      [("accepted", "human")] (fun _ _ => false) "t1"
      (RawRecord.record
        ⟨"id-9", "clock", "Clock", "tells time", ["llm:call"], "accepted",
         [⟨"t0", "accepted", "admin-service"⟩], none, none, ⟨none, none⟩⟩) =
      RawRecord.record
        ⟨"id-9", "clock", "Clock", "tells time", ["llm:call"], "accepted",
         [⟨"t0", "accepted", "admin-service"⟩], none, none, ⟨none, none⟩⟩ :=
  terminal_status_scan_idempotent _ _ _ _ _ (Or.inl rfl)

/-- C4 counterexample: on the two active skills holding memory:write
and network:read and the proposed set containing memory:write and
user:input, `analyze_composition` returns two warnings, not exactly
one — the proposed set also holds the whole sensitive pair, so the
standing sensitive-pair warning is appended after the overlap
warning. -/
theorem analyze_composition_example_counterexample :
    analyze_composition ["memory:write", "user:input"]
      [("skill-a", ["memory:write"]), ("skill-b", ["network:read"])] =
      [CompWarning.overlap "skill-a" ["memory:write"], CompWarning.sensitivePair]
    ∧ (analyze_composition ["memory:write", "user:input"]
        [("skill-a", ["memory:write"]), ("skill-b", ["network:read"])]).length ≠ 1 := by
  decide

/-- C4 as amended: the example produces exactly one capability-overlap
warning, the overlap with the first skill, plus the standing
sensitive-pair warning (the proposed set holds both user:input and
memory:write), and no warning mentioning the second skill. -/
theorem analyze_composition_example_amended :
    analyze_composition ["memory:write", "user:input"]
      [("skill-a", ["memory:write"]), ("skill-b", ["network:read"])] =
      [CompWarning.overlap "skill-a" ["memory:write"], CompWarning.sensitivePair]
    ∧ ((analyze_composition ["memory:write", "user:input"]
        [("skill-a", ["memory:write"]), ("skill-b", ["network:read"])]).filter
          CompWarning.isOverlapWarning).length = 1
    ∧ (analyze_composition ["memory:write", "user:input"]
        [("skill-a", ["memory:write"]), ("skill-b", ["network:read"])]).all
          (fun w => !w.mentionsSkill "skill-b") = true := by
  decide

/-- C7: capability denial.  When the event type requires a capability
and the registered source skill does not declare it, dispatch returns a
denied (unsuccessful) result carrying the missing capability and
invokes no handler; being a total function it raises nothing. -/
theorem dispatch_capability_denied (reg : SkillRegistry) (event : Event)
    (cap : String) (sourceSkill : Skill)
    (h1 : EVENT_CAPABILITIES.lookup event.type = some cap)
    (h2 : registryGet reg event.source = some sourceSkill)
    (h3 : cap ∉ sourceSkill.capabilities) :
    dispatch reg event = (some ⟨false, "Missing capability: " ++ cap⟩, []) := by
  have hc : sourceSkill.capabilities.contains cap = false := by simp [h3]
  simp [dispatch, h1, h2, hc]
  exact fun hmem => absurd hmem h3

/-- Witness for C7: a skill with no capabilities dispatching
memory_store is denied and the memory handler is not invoked. -/
theorem dispatch_capability_denied_witness :
    dispatch
      [⟨"proposer", [], [], fun _ => .ok none⟩,
       ⟨"memory", ["memory:write"], ["memory_store"], fun _ => .ok (some ⟨true, "stored"⟩)⟩]
      ⟨"memory_store", "x", "proposer"⟩ =
      (some ⟨false, "Missing capability: " ++ "memory:write"⟩, []) :=
  dispatch_capability_denied _ _ _ _ rfl rfl (by simp)

/-- C8: gate-action failure.  When the action of a transition attempt
raises, the proposal is rejected directly — status set to rejected, the
error message and the error type name recorded in the persisted
rejection fields, a rejected history entry appended — and the result is
the same for every gate configuration and approval channel, so the gate
policy check and the status advance are never reached. -/
theorem transition_action_failure_rejects (gates gates2 : List (String × String))
    (approval approval2 : Proposal → String → Bool) (now targetStatus : String)
    (act : Proposal → ActionOutcome) (p p1 : Proposal) (e : ExcInfo)
    (h : act p = ActionOutcome.err e p1) :
    transition gates approval now targetStatus (some act) p =
      rejectProposal p1 ("Action failed: " ++ e.msg) (some e.typeName) now
    ∧ (transition gates approval now targetStatus (some act) p).status = "rejected"
    ∧ (stripContext (transition gates approval now targetStatus (some act) p)).rejectionReason =
        some ("Action failed: " ++ e.msg)
    ∧ (stripContext (transition gates approval now targetStatus (some act) p)).rejectionReasonType =
        some e.typeName
    ∧ (stripContext (transition gates approval now targetStatus (some act) p)).history =
        p1.history ++ [⟨now, "rejected", "admin-service"⟩]
    ∧ transition gates approval now targetStatus (some act) p =
        transition gates2 approval2 now targetStatus (some act) p := by
  refine ⟨?_, ?_, ?_, ?_, ?_, ?_⟩ <;>
    simp [transition, h, rejectProposal, appendHistory, stripContext]

/-- Witness for C8 at a concrete failing action. -/
theorem transition_action_failure_rejects_witness :
    transition [("discovered", "human")] (fun _ _ => true) "t1" "discovered"
      (some (fun p => ActionOutcome.err ⟨"boom", "ValueError"⟩ p))
      ⟨"id-1", "clock", "Clock", "tells time", ["llm:call"], "new", [], none, none, ⟨none, none⟩⟩ =
      rejectProposal
        ⟨"id-1", "clock", "Clock", "tells time", ["llm:call"], "new", [], none, none, ⟨none, none⟩⟩
        ("Action failed: " ++ "boom") (some "ValueError") "t1" :=
  (transition_action_failure_rejects [("discovered", "human")] [] (fun _ _ => true)
    (fun _ _ => false) "t1" "discovered" _ _ _ ⟨"boom", "ValueError"⟩ rfl).1

/-- C9 (implicit): when the source named on the event is not a
registered skill, dispatch performs no capability check even for an
event type that requires one — it routes exactly as the unrestricted
routing phase, which is also what dispatch does for an unmapped event
type. -/
theorem dispatch_skips_check_for_unknown_source (reg : SkillRegistry)
    (event ev2 : Event) (cap : String)
    (h1 : EVENT_CAPABILITIES.lookup event.type = some cap)
    (h2 : registryGet reg event.source = none)
    (h3 : EVENT_CAPABILITIES.lookup ev2.type = none) :
    dispatch reg event = routeEvent reg event ∧
    dispatch reg ev2 = routeEvent reg ev2 := by
  constructor
  · simp [dispatch, h1, h2]
  · simp [dispatch, h3]

/-- Witness for C9: an event from an unregistered source with a mapped
type is routed like an event of an unmapped type. -/
theorem dispatch_skips_check_for_unknown_source_witness :
    dispatch
      [⟨"memory", ["memory:write"], ["memory_store"], fun _ => .ok (some ⟨true, "stored"⟩)⟩]
      ⟨"memory_store", "x", "ghost"⟩ =
      routeEvent
        [⟨"memory", ["memory:write"], ["memory_store"], fun _ => .ok (some ⟨true, "stored"⟩)⟩]
        ⟨"memory_store", "x", "ghost"⟩ ∧
    dispatch
      [⟨"memory", ["memory:write"], ["memory_store"], fun _ => .ok (some ⟨true, "stored"⟩)⟩]
      ⟨"skill_proposal", "y", "ghost"⟩ =
      routeEvent
        [⟨"memory", ["memory:write"], ["memory_store"], fun _ => .ok (some ⟨true, "stored"⟩)⟩]
        ⟨"skill_proposal", "y", "ghost"⟩ :=
  dispatch_skips_check_for_unknown_source _ _ _ _ rfl rfl rfl

/-- C1: install atomicity.  From a state in which the manifest file
exists, the module is not yet in the manifest, and no trace of the
package directory exists, a failure injected at any point of the
package-directory step makes the install return to exactly the initial
state — the appended manifest entry is removed and any partially
created directory and files are deleted — and re-raises the original
filesystem error. -/
theorem install_rollback_atomic (fs : SkillsFS) (moduleName className : String)
    (fp : FailPoint)
    (h1 : moduleName ∉ fs.skillDirs)
    (h2 : fs.manifestExists = true)
    (h3 : ∀ e ∈ fs.manifest, e.module ≠ modulePathOf moduleName)
    (h4 : ∀ f ∈ fs.skillFiles, f.1 ≠ moduleName) :
    installSkill fs moduleName className (some fp) =
      (fs, some (InstallError.fsFailure fp)) := by
  have hc : fs.skillDirs.contains moduleName = false := by simp [h1]
  have hany : fs.manifest.any (fun e => e.module == modulePathOf moduleName) = false :=
    List.any_eq_false.mpr (fun e he => by simpa using h3 e he)
  have hl : fs.manifest.filter (fun e => e.module != modulePathOf moduleName) = fs.manifest :=
    List.filter_eq_self.mpr (fun a ha => bne_iff_ne.mpr (h3 a ha))
  have hdirs : fs.skillDirs.filter (fun d => d != moduleName) = fs.skillDirs :=
    List.filter_eq_self.mpr (fun a ha => bne_iff_ne.mpr (fun hEq => h1 (hEq ▸ ha)))
  have hfiles : fs.skillFiles.filter (fun f => f.1 != moduleName) = fs.skillFiles :=
    List.filter_eq_self.mpr (fun a ha => bne_iff_ne.mpr (h4 a ha))
  cases fp <;>
    simp [installSkill, updateManifest, removeFromManifest, rmtreeSkillDir,
      hc, h2, hany, hl, hdirs, hfiles, List.filter_append, h1] <;>
    rw [← h2]

/-- Witness for C1: a copy-step failure on a concrete one-skill state
rolls everything back and re-raises. -/
theorem install_rollback_atomic_witness :
    installSkill
      ⟨true, [⟨"clawless.user.skills.memory", "MemorySkill"⟩], ["memory"],
       [("memory", "skill.py")]⟩
      "weather" "WeatherSkill" (some FailPoint.copyStep) =
      (⟨true, [⟨"clawless.user.skills.memory", "MemorySkill"⟩], ["memory"],
        [("memory", "skill.py")]⟩,
       some (InstallError.fsFailure FailPoint.copyStep)) :=
  install_rollback_atomic _ _ "WeatherSkill" _ (by decide) rfl (by decide) (by decide)

/-- C5 counterexample: a proposal whose persisted status is new (not
accepted) is nevertheless set to removed by the removal operation — the
code never inspects the current status. -/
theorem remove_skill_new_status_counterexample :
    (⟨"id-1", "weather", "Weather", "d", ["network:read"], "new", [], none, none,
      ⟨none, none⟩⟩ : Proposal).status ≠ "accepted"
    ∧ removeSkill
        ⟨true, [⟨"clawless.user.skills.weather", "WeatherSkill"⟩], ["weather"],
         [("weather", "skill.py"), ("weather", "__init__.py")]⟩ "t0" "weather"
        [⟨"id-1", "weather", "Weather", "d", ["network:read"], "new", [], none, none,
          ⟨none, none⟩⟩] =
      .ok ([⟨"id-1", "weather", "Weather", "d", ["network:read"], "removed",
             [⟨"t0", "removed", "admin-cli"⟩], none, none, ⟨none, none⟩⟩],
           ⟨true, [], [], []⟩) :=
  ⟨by decide, rfl⟩

/-- C5 as amended: the removal operation refuses only core skills; for
the first matching record, whatever its current status, it sets the
status to removed — so removed is reachable from every status, not only
from accepted. -/
theorem removed_reachable_from_any_status (fs : SkillsFS) (now idOrSlug : String)
    (r : Proposal) (rest : List Proposal)
    (hmatch : r.id = idOrSlug ∨ r.slug = idOrSlug)
    (hcore : slugToModuleName r.slug ∉ CORE_MODULES) :
    ∃ fs1, removeSkill fs now idOrSlug (r :: rest) =
      .ok ((stripContext
              (appendHistory { r with status := "removed" } "removed" "admin-cli" now)) :: rest,
           fs1)
      ∧ (stripContext
          (appendHistory { r with status := "removed" } "removed" "admin-cli" now)).status =
          "removed" := by
  have hm : (r.id == idOrSlug || r.slug == idOrSlug) = true := by
    rcases hmatch with h | h <;> simp [h]
  have hcb : CORE_MODULES.contains (slugToModuleName r.slug) = false := by simp [hcore]
  refine ⟨(if (removeFromManifest fs (modulePathOf (slugToModuleName r.slug))).skillDirs.contains
        (slugToModuleName r.slug) then
      rmtreeSkillDir (removeFromManifest fs (modulePathOf (slugToModuleName r.slug)))
        (slugToModuleName r.slug)
    else removeFromManifest fs (modulePathOf (slugToModuleName r.slug))), ?_, rfl⟩
  simp [removeSkill, hm, removeSkillMatched, hcb]
  rw [if_neg hcore]

/-- Witness for C5 as amended, at a concrete record in status
human-review. -/
theorem removed_reachable_from_any_status_witness :
    ∃ fs1, removeSkill ⟨true, [], [], []⟩ "t2" "fun-skill"
      [⟨"id-7", "fun-skill", "Fun", "d", [], "human-review", [], none, none, ⟨none, none⟩⟩] =
      .ok ((stripContext
              (appendHistory
                { (⟨"id-7", "fun-skill", "Fun", "d", [], "human-review", [], none, none,
                   ⟨none, none⟩⟩ : Proposal) with status := "removed" }
                "removed" "admin-cli" "t2")) :: [],
           fs1)
      ∧ (stripContext
          (appendHistory
            { (⟨"id-7", "fun-skill", "Fun", "d", [], "human-review", [], none, none,
               ⟨none, none⟩⟩ : Proposal) with status := "removed" }
            "removed" "admin-cli" "t2")).status = "removed" :=
  removed_reachable_from_any_status _ _ _ _ [] (Or.inr rfl) (by decide)

/-- Against the empty active-skill map every composition warning that
`analyze_file` can produce is the sensitive-pair warning. -/
lemma analyze_file_empty_active_warnings (code : Option PyModule) (caps : List String) :
    (analyze_file code caps getActiveSkillCapabilities).compositionWarnings.all
      (fun w => w == CompWarning.sensitivePair) = true := by
  cases code with
  | none => rfl
  | some m =>
    simp only [analyze_file, analyze_composition, getActiveSkillCapabilities,
      List.filterMap_nil, List.nil_append]
    split <;> simp

/-- C10 (implicit): the active-capability accessor of the orchestrator
returns the empty map, so the agent-review analysis action run by the
polling pass stores an analysis whose composition warnings contain no
capability-overlap warning — every warning it can produce is the fixed
sensitive-pair warning. -/
theorem pipeline_analysis_empty_active_map (readFile : String → Option PyModule)
    (p : Proposal) (codePath : String)
    (h : p.context.codePath = some codePath) :
    getActiveSkillCapabilities = [] ∧
    ∃ res, (outcomeProposal (runAnalysis readFile p)).context.analysis = some res ∧
      res.compositionWarnings.all (fun w => w == CompWarning.sensitivePair) = true := by
  refine ⟨rfl,
    analyze_file (readFile codePath) p.capabilities getActiveSkillCapabilities, ?_,
    analyze_file_empty_active_warnings (readFile codePath) p.capabilities⟩
  simp only [runAnalysis, h]
  split <;> simp [outcomeProposal]

/-- Witness for C10 at a concrete proposal with an unreadable
implementation file. -/
theorem pipeline_analysis_empty_active_map_witness :
    getActiveSkillCapabilities = [] ∧
    ∃ res, (outcomeProposal (runAnalysis (fun _ => none)
        ⟨"id-3", "clock", "Clock", "d", ["user:input", "memory:write"], "implementation",
         [], none, none, ⟨some "impl.py", none⟩⟩)).context.analysis = some res ∧
      res.compositionWarnings.all (fun w => w == CompWarning.sensitivePair) = true :=
  pipeline_analysis_empty_active_map (fun _ => none) _ "impl.py" rfl

/-- A normal segment (not dot-dot, not dot, not empty) is appended by
one normalization step. -/
lemma stepSeg_normal (base : List String) (seg : String)
    (h : seg ≠ ".." ∧ seg ≠ "." ∧ seg ≠ "") :
    stepSeg base seg = base ++ [seg] := by
  simp [stepSeg, h.1, h.2.1, h.2.2]

/-- Resolving a relative path of normal segments is plain appending. -/
lemma resolveSegs_normal : ∀ (rel : List String) (base : List String),
    (∀ seg ∈ rel, seg ≠ ".." ∧ seg ≠ "." ∧ seg ≠ "") →
    resolveSegs base rel = base ++ rel := by
  intro rel
  induction rel with
  | nil => intro base _; simp [resolveSegs]
  | cons s t ih =>
    intro base h
    have hs := h s (by simp)
    have ht : ∀ seg ∈ t, seg ≠ ".." ∧ seg ≠ "." ∧ seg ≠ "" :=
      fun seg hmem => h seg (by simp [hmem])
    have h1 : resolveSegs base (s :: t) = resolveSegs (stepSeg base s) t := rfl
    rw [h1, stepSeg_normal base s hs, ih (base ++ [s]) ht]
    simp

/-- The under-root check holds exactly when the target extends the root
by some suffix. -/
lemma isPathUnder_iff (p q : List String) :
    isPathUnder p q = true ↔ ∃ s, p = q ++ s := by
  induction q generalizing p with
  | nil => simp [isPathUnder]
  | cons a t ih =>
    cases p with
    | nil => simp [isPathUnder]
    | cons b bs => simp [isPathUnder, ih, exists_and_left]

/-- C3: sandbox path confinement.  Resolving a write target (a) fails
with a PathViolation when the resolved target does not extend the
resolved data root (for instance because dot-dot segments escaped it),
(b) fails with a PathViolation when it extends the root but the first
segment under the root is not in the allow-list of writable
subdirectories, and (c) returns the resolved path without error for a
relative path of normal segments that starts inside an allowed
subdirectory. -/
theorem resolve_safe_write_path_spec (dataDir relativePath : List String) :
    ((¬ ∃ s, resolveSegs (resolveSegs [] dataDir) relativePath =
        resolveSegs [] dataDir ++ s) →
      ∃ v, resolve_safe_write_path dataDir relativePath = Except.error v)
    ∧ (∀ s, resolveSegs (resolveSegs [] dataDir) relativePath =
          resolveSegs [] dataDir ++ s →
        s.headD "" ∉ ALLOWED_WRITE_SUBDIRS →
        ∃ v, resolve_safe_write_path dataDir relativePath = Except.error v)
    ∧ ((∀ seg ∈ relativePath, seg ≠ ".." ∧ seg ≠ "." ∧ seg ≠ "") →
        relativePath.headD "" ∈ ALLOWED_WRITE_SUBDIRS →
        resolve_safe_write_path dataDir relativePath =
          Except.ok (resolveSegs [] dataDir ++ relativePath)) := by
  refine ⟨?_, ?_, ?_⟩
  · intro hno
    have hu : isPathUnder (resolveSegs (resolveSegs [] dataDir) relativePath)
        (resolveSegs [] dataDir) = false := by
      cases hb : isPathUnder (resolveSegs (resolveSegs [] dataDir) relativePath)
          (resolveSegs [] dataDir) with
      | false => rfl
      | true => exact absurd ((isPathUnder_iff _ _).mp hb) hno
    refine ⟨PathViolation.outsideRoot (resolveSegs (resolveSegs [] dataDir) relativePath)
      (resolveSegs [] dataDir), ?_⟩
    simp only [resolve_safe_write_path]
    rw [hu]
    rfl
  · intro s hs hnot
    have hu : isPathUnder (resolveSegs (resolveSegs [] dataDir) relativePath)
        (resolveSegs [] dataDir) = true := (isPathUnder_iff _ _).mpr ⟨s, hs⟩
    have hdrop : (resolveSegs (resolveSegs [] dataDir) relativePath).drop
        (resolveSegs [] dataDir).length = s := by
      rw [hs]; exact List.drop_left _ _
    have hcb : ALLOWED_WRITE_SUBDIRS.contains (s.headD "") = false := by
      cases hx : ALLOWED_WRITE_SUBDIRS.contains (s.headD "") with
      | false => rfl
      | true => exact absurd (by simpa using hx) (by simpa using hnot)
    refine ⟨PathViolation.disallowedTop (s.headD ""), ?_⟩
    simp only [resolve_safe_write_path]
    rw [hu, hdrop, hcb]
    rfl
  · intro hnormal hhead
    have he : resolveSegs (resolveSegs [] dataDir) relativePath =
        resolveSegs [] dataDir ++ relativePath :=
      resolveSegs_normal relativePath (resolveSegs [] dataDir) hnormal
    have hu : isPathUnder (resolveSegs (resolveSegs [] dataDir) relativePath)
        (resolveSegs [] dataDir) = true := (isPathUnder_iff _ _).mpr ⟨relativePath, he⟩
    have hdrop : (resolveSegs (resolveSegs [] dataDir) relativePath).drop
        (resolveSegs [] dataDir).length = relativePath := by
      rw [he]; exact List.drop_left _ _
    have hcb : ALLOWED_WRITE_SUBDIRS.contains (relativePath.headD "") = true := by
      simpa using hhead
    simp only [resolve_safe_write_path]
    rw [hu, hdrop, hcb, he]
    rfl

/-- Witness for C3: writing a profile file inside the profiles
subdirectory resolves without error. -/
theorem resolve_safe_write_path_spec_witness :
    resolve_safe_write_path ["home", "agent", "data"] ["profiles", "alice", "persona.md"] =
      Except.ok (resolveSegs [] ["home", "agent", "data"] ++
        ["profiles", "alice", "persona.md"]) :=
  (resolve_safe_write_path_spec _ _).2.2 (by decide) (by decide)

/-- C6: safety-scan behavior on the listed patterns.  A module with an
os import or with a call whose extracted callee name is eval yields at
least one issue; a module with no forbidden import (plain or from
form), no call to a forbidden builtin, and no string constant holding a
code-execution pattern yields the empty issue list. -/
theorem analyze_code_safety_spec (m : PyModule) :
    (((∃ names ln, PyStmt.importStmt names ln ∈ m ∧ "os" ∈ names) ∨
      (∃ f args ln, PyExpr.call f args ln ∈ moduleExprs m ∧
        getCallName (PyExpr.call f args ln) = "eval")) →
      analyze_code_safety m ≠ [])
    ∧ ((∀ names ln, PyStmt.importStmt names ln ∈ m →
          ∀ n ∈ names, topModule n ∉ FORBIDDEN_IMPORTS) →
       (∀ mo ln, PyStmt.importFrom (some mo) ln ∈ m →
          topModule mo ∉ FORBIDDEN_IMPORTS) →
       (∀ f args ln, PyExpr.call f args ln ∈ moduleExprs m →
          getCallName (PyExpr.call f args ln) ∉ FORBIDDEN_BUILTINS) →
       (∀ s ln, PyExpr.strConst s ln ∈ moduleExprs m →
          containsCodePattern s = false) →
       analyze_code_safety m = []) := by
  constructor
  · intro h
    rcases h with ⟨names, ln, hmem, hos⟩ | ⟨f, args, ln, hmem, hname⟩
    · have hfc : FORBIDDEN_IMPORTS.contains (topModule "os") = true := by decide
      have hfn : (if FORBIDDEN_IMPORTS.contains (topModule "os") then
          some (SafetyIssue.forbiddenImport "os" ln) else none) =
          some (SafetyIssue.forbiddenImport "os" ln) := by rw [hfc]; rfl
      have hissue : SafetyIssue.forbiddenImport "os" ln ∈
          stmtIssues (PyStmt.importStmt names ln) :=
        List.mem_filterMap.mpr ⟨"os", hos, hfn⟩
      exact List.ne_nil_of_mem (List.mem_flatMap.mpr ⟨_, hmem, hissue⟩)
    · have hbc : FORBIDDEN_BUILTINS.contains "eval" = true := by decide
      have hni : exprNodeIssues (PyExpr.call f args ln) =
          [SafetyIssue.forbiddenCall "eval" ln] := by
        simp only [exprNodeIssues, hname, hbc, if_true]
      obtain ⟨st, hst, hin⟩ := List.mem_flatMap.mp hmem
      have hci : SafetyIssue.forbiddenCall "eval" ln ∈ stmtIssues st := by
        cases st with
        | importStmt ns l2 => simp [stmtExprs] at hin
        | importFrom mo l2 => simp [stmtExprs] at hin
        | exprStmt e =>
            exact List.mem_flatMap.mpr ⟨_, hin, by rw [hni]; exact List.mem_singleton.mpr rfl⟩
        | assign v =>
            exact List.mem_flatMap.mpr ⟨_, hin, by rw [hni]; exact List.mem_singleton.mpr rfl⟩
      exact List.ne_nil_of_mem (List.mem_flatMap.mpr ⟨_, hst, hci⟩)
  · intro hi hif hcall hstr
    apply List.flatMap_eq_nil_iff.mpr
    intro st hst
    cases st with
    | importStmt ns ln =>
        apply List.filterMap_eq_nil_iff.mpr
        intro n hn
        have hx := hi ns ln hst n hn
        simp [hx]
    | importFrom mo ln =>
        cases mo with
        | none => rfl
        | some mv =>
            have hx := hif mv ln hst
            simp [stmtIssues, hx]
    | exprStmt e =>
        apply List.flatMap_eq_nil_iff.mpr
        intro nd hnd
        have hndm : nd ∈ moduleExprs m :=
          List.mem_flatMap.mpr ⟨_, hst, by simpa [stmtExprs] using hnd⟩
        cases nd with
        | call f args ln =>
            have hx := hcall f args ln hndm
            simp [exprNodeIssues, hx]
        | strConst s ln =>
            have hx := hstr s ln hndm
            simp [exprNodeIssues, hx]
        | name id ln => rfl
        | attrAccess v a ln => rfl
        | otherConst ln => rfl
        | binop l r ln => rfl
    | assign v =>
        apply List.flatMap_eq_nil_iff.mpr
        intro nd hnd
        have hndm : nd ∈ moduleExprs m :=
          List.mem_flatMap.mpr ⟨_, hst, by simpa [stmtExprs] using hnd⟩
        cases nd with
        | call f args ln =>
            have hx := hcall f args ln hndm
            simp [exprNodeIssues, hx]
        | strConst s ln =>
            have hx := hstr s ln hndm
            simp [exprNodeIssues, hx]
        | name id ln => rfl
        | attrAccess v2 a ln => rfl
        | otherConst ln => rfl
        | binop l r ln => rfl

/-- Witness for C6: a module consisting of an os import yields at least
one issue. -/
theorem analyze_code_safety_spec_witness :
    analyze_code_safety [PyStmt.importStmt ["os"] 1] ≠ [] :=
  (analyze_code_safety_spec _).1 (Or.inl ⟨["os"], 1, by simp, by simp⟩)

end Clawless
